import Mathlib

/-!
Verification of the per-connection session engine of the opentrade gateway
(`src/opentrade/connection.cc`).

The development shallowly embeds the data model and handlers of
`Connection` as executable Lean functions and proves properties of the
embedded code.  JSON values are modelled by the inductive type `J`;
C++ `double` fields participate only in (dis)equality comparisons in the
code under study, so they are modelled by `Int`, which preserves exactly
the diff/emission structure.  `std::map`s are modelled by association
lists with unique keys.
-/

namespace opentrade

/-- A JSON value (the subset of shapes the connection code produces). -/
inductive J where
  | null : J
  | b : Bool → J
  | i : Int → J
  | s : String → J
  | arr : List J → J
  | obj : List (String × J) → J

/-- Top-of-book depth level (`MarketData::Depth` entry): ask/bid price and size. -/
structure DepthLevel where
  ask_price : Int
  ask_size : Int
  bid_price : Int
  bid_size : Int
  deriving DecidableEq

/-- Trade fields of a market-data snapshot (`md.trade`); `open` is a Lean
keyword, so the source field `open` is rendered `open_`. -/
structure TradeFields where
  open_ : Int
  high : Int
  low : Int
  close : Int
  qty : Int
  volume : Int
  vwap : Int
  deriving DecidableEq

/-- A market-data snapshot: timestamp, trade fields and 5 depth levels. -/
structure MarketData where
  tm : Int
  trade : TradeFields
  depth : List DepthLevel
  deriving DecidableEq

/-- The all-zero depth level. -/
def levelZero : DepthLevel := ⟨0, 0, 0, 0⟩

/-- The zero snapshot: value-initialized `MarketData` (the snapshot a fresh
subscription entry starts from). -/
def mdZero : MarketData := ⟨0, ⟨0, 0, 0, 0, 0, 0, 0⟩, List.replicate 5 levelZero⟩

/-- The changed depth fields of level `i`, in source order
(ask price `a_i`, ask size `A_i`, bid price `b_i`, bid size `B_i`);
embeds the body of the depth loop of `GetMarketData`. -/
def depthFieldDiffs (d d0 : DepthLevel) (i : Nat) : List (String × J) :=
  (if d.ask_price ≠ d0.ask_price then [("a" ++ toString i, J.i d.ask_price)] else []) ++
  (if d.ask_size ≠ d0.ask_size then [("A" ++ toString i, J.i d.ask_size)] else []) ++
  (if d.bid_price ≠ d0.bid_price then [("b" ++ toString i, J.i d.bid_price)] else []) ++
  (if d.bid_size ≠ d0.bid_size then [("B" ++ toString i, J.i d.bid_size)] else [])

/-- The non-`t` members of the per-security diff sub-object built by
`GetMarketData`: those of o/h/l/c/q/v/V that changed, then for the 5 depth
levels those of a_i/A_i/b_i/B_i that changed, in source order. -/
def mdChangedFields (md md0 : MarketData) : List (String × J) :=
  (if md.trade.open_ ≠ md0.trade.open_ then [("o", J.i md.trade.open_)] else []) ++
  (if md.trade.high ≠ md0.trade.high then [("h", J.i md.trade.high)] else []) ++
  (if md.trade.low ≠ md0.trade.low then [("l", J.i md.trade.low)] else []) ++
  (if md.trade.close ≠ md0.trade.close then [("c", J.i md.trade.close)] else []) ++
  (if md.trade.qty ≠ md0.trade.qty then [("q", J.i md.trade.qty)] else []) ++
  (if md.trade.volume ≠ md0.trade.volume then [("v", J.i md.trade.volume)] else []) ++
  (if md.trade.vwap ≠ md0.trade.vwap then [("V", J.i md.trade.vwap)] else []) ++
  ((List.range 5).flatMap fun i =>
    depthFieldDiffs (md.depth.getD i levelZero) (md0.depth.getD i levelZero) i)

/-- `GetMarketData(md, md0, id, j)` from `connection.cc`: returns the element
`[id, sub-object]` appended to the `"md"` frame, or `none` when nothing is
appended.  The code first returns when `md.tm == md0.tm`; it then builds the
sub-object `j3` starting with `j3["t"] = md.tm` and adds every changed field;
finally it returns without appending when `j3` is empty (a guard that can
never fire, since `"t"` was always inserted first). -/
def GetMarketData (md md0 : MarketData) (id : Int) : Option J :=
  if md.tm = md0.tm then none
  else
    let j3 : List (String × J) := ("t", J.i md.tm) :: mdChangedFields md md0
    if j3.isEmpty then none
    else some (J.arr [J.i id, J.obj j3])

/-- A snapshot equal to `mdZero` except that the timestamp advanced to 1:
no tracked field beyond the timestamp changed. -/
def mdOnlyT : MarketData := { mdZero with tm := 1 }

/-- An authenticated principal (`User`): id, admin flag and owned sub-account
ids (`user->sub_accounts`, modelled as the list of its keys). -/
structure User where
  id : Int
  is_admin : Bool
  sub_accounts : List Int
  deriving DecidableEq

/-- The per-security subscription map `subs_`:
security id → (last-sent snapshot, subscriber count), as an association list
with unique keys (`std::map<Security::IdType, std::pair<MarketData, int>>`). -/
abbrev Subs := List (Int × (MarketData × Int))

/-- `subs_.find(id)` — the value stored under `id`, if any. -/
def lookupSub : Subs → Int → Option (MarketData × Int)
  | [], _ => none
  | (k, v) :: rest, id => if k = id then some v else lookupSub rest id

/-- Overwrite the value stored under `id` (no-op when absent). -/
def setSub : Subs → Int → (MarketData × Int) → Subs
  | [], _, _ => []
  | (k, v) :: rest, id, v2 =>
      if k = id then (k, v2) :: rest else (k, v) :: setSub rest id v2

/-- `subs_.erase(it)` — drop the entry stored under `id`, if any. -/
def eraseSub : Subs → Int → Subs
  | [], _ => []
  | (k, v) :: rest, id => if k = id then rest else (k, v) :: eraseSub rest id

/-- The reference-data / market-data environment a `sub` dispatch reads:
the set of security ids known to `SecurityManager` and the current snapshot
served by `MarketDataManager` for each id. -/
structure Env where
  secs : List Int
  snapshot : Int → MarketData

/-- One iteration of the `sub` loop of `Connection::OnMessageSync` for a
single id: `auto& s = subs_[id]` (which default-inserts a zeroed entry when
the id is absent), then — only when `SecurityManager::Instance().Get(id)`
succeeds — diff the current snapshot against `s.first`, store the snapshot
and increment the count.  Returns the updated map and the optional element
appended to the one-shot `"md"` frame. -/
def subOne (env : Env) (subs : Subs) (id : Int) : Subs × Option J :=
  let s := (lookupSub subs id).getD (mdZero, 0)
  let subs1 := if (lookupSub subs id).isSome then subs else subs ++ [(id, (mdZero, 0))]
  if id ∈ env.secs then
    let md := env.snapshot id
    let e := GetMarketData md s.1 id
    (setSub subs1 id (md, s.2 + 1), e)
  else (subs1, none)

/-- The `sub` loop over the listed ids, accumulating the elements of the
one-shot `"md"` frame. -/
def OnSubGo (env : Env) : Subs → List J → List Int → Subs × List J
  | subs, entries, [] => (subs, entries)
  | subs, entries, id :: rest =>
      let (subs2, e) := subOne env subs id
      OnSubGo env subs2 (entries ++ e.toList) rest

/-- The `sub` handler (`action == "sub"` branch of `Connection::OnMessageSync`):
processes the listed security ids and sends the `"md"` frame only when it
received at least one element (`jout.size() > 1`). -/
def OnSub (env : Env) (subs : Subs) (ids : List Int) : Subs × List J :=
  let (subs2, entries) := OnSubGo env subs [] ids
  (subs2, if entries.isEmpty then [] else [J.arr (J.s "md" :: entries)])

/-- The `unsub` handler (`action == "unsub"` branch): for each listed id in
order, look the id up; an absent id executes `return`, aborting the whole
message (the remaining ids are not processed); a present id is decremented
and erased when the count drops to `<= 0`. -/
def OnUnsubGo : Subs → List Int → Subs
  | subs, [] => subs
  | subs, id :: rest =>
      match lookupSub subs id with
      | none => subs
      | some (md, cnt) =>
          let subs2 := if cnt - 1 ≤ 0 then eraseSub subs id else setSub subs id (md, cnt - 1)
          OnUnsubGo subs2 rest

/-- A `sub` or `unsub` message (the only verbs that touch `subs_`). -/
inductive SubMsg where
  | sub (ids : List Int)
  | unsub (ids : List Int)

/-- The effect of one `sub`/`unsub` message on the subscription map. -/
def stepSubs (env : Env) (subs : Subs) : SubMsg → Subs
  | .sub ids => (OnSub env subs ids).1
  | .unsub ids => OnUnsubGo subs ids

/-- The subscription map reached from a fresh session after a sequence of
`sub`/`unsub` messages. -/
def runSubs (env : Env) (ms : List SubMsg) : Subs :=
  ms.foldl (stepSubs env) []

/-- An environment that knows no security at all. -/
def envNoSec : Env := ⟨[], fun _ => mdZero⟩

/-- Lookup in a string-keyed association list (used for `ecs_`/`mds_` and for
the process-wide token table `kTokens`). -/
def lookupStr {α : Type} : List (String × α) → String → Option α
  | [], _ => none
  | (k, v) :: rest, key => if k = key then some v else lookupStr rest key

/-- `m[key] = v` on a string-keyed map: overwrite the existing entry or
append a new one. -/
def setStr {α : Type} : List (String × α) → String → α → List (String × α)
  | [], key, v => [(key, v)]
  | (k, v0) :: rest, key, v =>
      if k = key then (k, v) :: rest else (k, v0) :: setStr rest key v

/-- The mutable per-connection state of `Connection` that the verified
handlers touch. -/
structure ConnState where
  user : Option User
  subs : Subs
  ecs : List (String × Bool)
  mds : List (String × Bool)
  single_pnls : List ((Int × Int) × (Int × Int))
  pnls : List (Int × (Int × Int))
  sub_pnl : Bool
  closed : Bool
  test_algo_tokens : List String
  deriving DecidableEq

/-- A freshly accepted, unauthenticated connection. -/
def initialConn : ConnState :=
  { user := none, subs := [], ecs := [], mds := [], single_pnls := [], pnls := []
    sub_pnl := false, closed := false, test_algo_tokens := [] }

/-- The error-reply emission sites of the dispatcher and its handlers, each
constructor holding the data the site interpolates into the frame. -/
inductive ErrorSite where
  | emptyAction
  | loginFirst
  | invalidJson (msg : String)
  | jsonError (msg what : String)
  | onMessage (msg what : String)
  | cancelOrderId (id : Int)
  | positionSecurityId (id : Int)
  | positionAccountName (name : String)
  | positionBroker
  | algoDuplicateToken (token : String)
  | algoInvalidParams (token what : String)
  | algoInvalidAction (action : String)
  | orderSubAccount (name : String)
  | orderSecurityId (id : Int)
  | orderSide (side : String)
  | orderStopPrice

/-- The literal `"Invalid security id: "`.  In `OnPosition` and `OnOrder` the
source writes `"Invalid security id: " + security_id` where `security_id` is an
`int64_t`: in C++ this is pointer arithmetic on the string literal, yielding
the literal's suffix starting at offset `security_id`, not a decimal rendering
of the id.  `suffixAt` reproduces that for in-range offsets. -/
def invalidSecLit : String := "Invalid security id: "

/-- The suffix of `lit` starting at byte offset `n` (C++ `lit + n`). -/
def suffixAt (lit : String) (n : Int) : String := lit.drop n.toNat

/-- The error frame each emission site sends, transcribed from the `json`
array literals of `connection.cc`. -/
def renderError : ErrorSite → List J
  | .emptyAction => [J.s "error", J.s "msg", J.s "action", J.s "empty action"]
  | .loginFirst => [J.s "error", J.s "msg", J.s "action", J.s "you must login first"]
  | .invalidJson msg => [J.s "error", J.s "json", J.s msg, J.s "invalid json string"]
  | .jsonError msg what => [J.s "error", J.s "json", J.s msg, J.s ("json error: " ++ what)]
  | .onMessage msg what => [J.s "error", J.s "Connection::OnMessage", J.s msg, J.s what]
  | .cancelOrderId id =>
      [J.s "error", J.s "cancel", J.s "order id", J.s ("Invalid order id: " ++ toString id)]
  | .positionSecurityId id =>
      [J.s "error", J.s "position", J.s "security id", J.s (suffixAt invalidSecLit id)]
  | .positionAccountName name =>
      [J.s "error", J.s "position", J.s "account name", J.s ("Invalid account name: " ++ name)]
  | .positionBroker =>
      [J.s "error", J.s "position", J.s "account name",
       J.s "Can not find broker for this account and security pair"]
  | .algoDuplicateToken token => [J.s "error", J.s "algo", J.s "duplicate token", J.s token]
  | .algoInvalidParams token what =>
      [J.s "error", J.s "algo", J.s "invalid params", J.s token, J.s what]
  | .algoInvalidAction action => [J.s "error", J.s "algo", J.s "invalid action", J.s action]
  | .orderSubAccount name =>
      [J.s "error", J.s "order", J.s "sub_account", J.s ("Invalid sub_account: " ++ name)]
  | .orderSecurityId id =>
      [J.s "error", J.s "order", J.s "security id", J.s (suffixAt invalidSecLit id)]
  | .orderSide side => [J.s "error", J.s "order", J.s "side", J.s ("Invalid side: " ++ side)]
  | .orderStopPrice =>
      [J.s "error", J.s "order", J.s "stop price", J.s "Miss stop price for stop order"]

/-- An inbound message as seen at the top of `Connection::OnMessageSync`:
the raw heartbeat string `"h"`, a string `json::parse` rejects, or a parsed
JSON array whose element 0 is the string `action`. -/
inductive InMsg where
  | heartbeat
  | malformed (raw : String)
  | parsed (action : String) (raw : String)

/-- Where control stands after the pre-dispatch portion of
`Connection::OnMessageSync` (lines up to the verb table): either the message
was answered (or dropped) with the given reply frames, or control reaches the
verb table to dispatch `action` with the (possibly updated) session state. -/
inductive GateResult where
  | reply (frames : List J)
  | dispatch (action : String)

/-- The pre-dispatch portion of `Connection::OnMessageSync`: echo `"h"`;
reply `error/json` on a parse failure (the `parse_error` catch block); reply
`error/msg/action` on an empty action; then the login gate — for any action
other than `"login"` with no authenticated user, resolve the per-message
token against `kTokens` and reply `"you must login first"` when it does not
resolve.  Returns the resulting session state and where control stands. -/
def OnMessageGate (tokens : List (String × User)) (st : ConnState) (m : InMsg)
    (token : String) : ConnState × GateResult :=
  match m with
  | .heartbeat => (st, .reply [J.s "h"])
  | .malformed raw => (st, .reply [J.arr (renderError (.invalidJson raw))])
  | .parsed action _ =>
      if action = "" then (st, .reply [J.arr (renderError .emptyAction)])
      else if action ≠ "login" ∧ st.user = none then
        match lookupStr tokens token with
        | none => ({ st with user := none }, .reply [J.arr (renderError .loginFirst)])
        | some u => ({ st with user := some u }, .dispatch action)
      else (st, .dispatch action)

/-- Modelled from the spec: `GlobalOrderBook::LoadStore(seq, this)` is
declared outside `connection.cc`; per the spec it replays the stored
confirmations with sequence strictly greater than `seq` to the session as
`"Order"` frames (the full confirmation layout is abstracted to the verb and
the sequence number, which is all the `offline` contract constrains). -/
def LoadStoreOrders (store : List Nat) (seq : Int) : List J :=
  (store.filter fun s => seq < (s : Int)).map fun s => J.arr [J.s "Order", J.i s]

/-- Modelled from the spec: `AlgoManager::LoadStore(seq, this)` is declared
outside `connection.cc`; per the spec it replays the stored algo events with
sequence strictly greater than `seq` to the session as `"Algo"` frames. -/
def LoadStoreAlgos (store : List Nat) (seq : Int) : List J :=
  (store.filter fun s => seq < (s : Int)).map fun s => J.arr [J.s "Algo", J.i s]

/-- The `offline` branch of `Connection::OnMessageSync`: when the message has
a third element (`j.size() > 2`), first replay algo events newer than
`seqAlgos` and send `["offline_algos","complete"]`; then always replay
confirmations newer than `seqOrders`, send `["offline_orders","complete"]`
and finally `["offline","complete"]`. -/
def OnOffline (orderStore algoStore : List Nat) (seqOrders : Int)
    (seqAlgos : Option Int) : List J :=
  (match seqAlgos with
   | some sa => LoadStoreAlgos algoStore sa ++ [J.arr [J.s "offline_algos", J.s "complete"]]
   | none => []) ++
  LoadStoreOrders orderStore seqOrders ++
  [J.arr [J.s "offline_orders", J.s "complete"], J.arr [J.s "offline", J.s "complete"]]

/-- A position record as read from `PositionManager` (`Position`). -/
structure Position where
  qty : Int
  avg_px : Int
  unrealized_pnl : Int
  realized_pnl : Int
  total_bought_qty : Int
  total_sold_qty : Int
  total_outstanding_buy_qty : Int
  total_outstanding_sell_qty : Int
  deriving DecidableEq

/-- The environment `Connection::OnPosition` reads: known security ids,
known sub-account names, the (account name, security id) pairs for which
`acc->GetBroker(*sec)` succeeds, and the position records returned by
`PositionManager::Instance().Get` for the plain and the broker lookup. -/
structure PosEnv where
  secs : List Int
  accNames : List String
  brokerPairs : List (String × Int)
  posPlain : String → Int → Position
  posBroker : String → Int → Position

/-- The composed `"position"` record `Connection::OnPosition` builds into its
local `out` (the source lists `total_outstanding_sell_qty` twice; under
`nlohmann::json` object semantics the duplicate key collapses to one). -/
def composedPositionFrame (p : Position) : J :=
  J.arr [J.s "position",
    J.obj [("qty", J.i p.qty), ("avg_px", J.i p.avg_px),
           ("unrealized_pnl", J.i p.unrealized_pnl),
           ("realized_pnl", J.i p.realized_pnl),
           ("total_bought_qty", J.i p.total_bought_qty),
           ("total_sold_qty", J.i p.total_sold_qty),
           ("total_outstanding_buy_qty", J.i p.total_outstanding_buy_qty),
           ("total_outstanding_sell_qty", J.i p.total_outstanding_sell_qty)]]

/-- `Connection::OnPosition(j, msg)`: resolve the security and the account
(and, when `broker` is requested, the broker account), then reply.  The
source composes the full record into `out` but executes `Send(j.dump())`,
so the successful reply is the inbound message `msgJ` echoed back, and `out`
is discarded.  `broker` stands for `j.size() > 3 && Get<bool>(j[3])`. -/
def OnPosition (env : PosEnv) (secId : Int) (accName : String) (broker : Bool)
    (msgJ : J) : List J :=
  if secId ∉ env.secs then [J.arr (renderError (.positionSecurityId secId))]
  else if accName ∉ env.accNames then [J.arr (renderError (.positionAccountName accName))]
  else if broker then
    if (accName, secId) ∉ env.brokerPairs then [J.arr (renderError .positionBroker)]
    else [msgJ]
  else [msgJ]

/-- The order reference a confirmation carries (`cm->order`), reduced to the
field `Connection::Send(Confirmation::Ptr)` inspects. -/
structure OrderRec where
  sub_account_id : Int
  deriving DecidableEq

/-- A confirmation as a push payload (`Confirmation::Ptr`). -/
structure Confirmation where
  order : OrderRec
  deriving DecidableEq

/-- `Connection::Send(Confirmation::Ptr)`: returns whether the confirmation
is posted to the session strand for encoding.  It is dropped when the session
is closed, has no user, or the user's sub-accounts do not contain the order's
sub-account. -/
def SendConfirmation (st : ConnState) (cm : Confirmation) : Bool :=
  if st.closed then false
  else
    match st.user with
    | none => false
    | some u => decide (cm.order.sub_account_id ∈ u.sub_accounts)

/-- `Connection::Send(const Algo&, status, body, seq)`: returns whether the
algo event is posted to the session strand.  It is dropped when the session
is closed, has no user, or the user's id differs from the algo's owning
user's id (`user_->id != algo.user().id`). -/
def SendAlgo (st : ConnState) (algoUserId : Int) : Bool :=
  if st.closed then false
  else
    match st.user with
    | none => false
    | some u => decide (u.id = algoUserId)

/-- Generic association-list lookup for the PnL maps. -/
def lookupKey {κ α : Type} [DecidableEq κ] : List (κ × α) → κ → Option α
  | [], _ => none
  | (k, v) :: rest, key => if k = key then some v else lookupKey rest key

/-- Generic association-list overwrite-or-append for the PnL maps
(`m[key] = v`). -/
def setKey {κ α : Type} [DecidableEq κ] : List (κ × α) → κ → α → List (κ × α)
  | [], key, v => [(key, v)]
  | (k, v0) :: rest, key, v =>
      if k = key then (k, v) :: rest else (k, v0) :: setKey rest key v

/-- What a periodic-publisher tick does, in order: schedule the next tick
(`timer_.async_wait`) or send a frame on the transport. -/
inductive TickEvent where
  | schedule
  | send (f : J)

/-- Modelled from the spec: `Connection::Send(const std::string&)` is declared
in `connection.h`, which is not under `src/`; per the spec ("After `closed`,
no outbound message is emitted") it emits the frame only while the session is
not closed. -/
def gatedSend (closed : Bool) (f : J) : List TickEvent :=
  if closed then [] else [.send f]

/-- The environment one publisher tick reads: the exchange-connectivity and
market-data adapter maps with their `connected()` flags, the per-security
snapshots, `PositionManager`'s per-(sub-account, security) positions (their
realized/unrealized PnL), its per-sub-account aggregate PnLs, and the clock
(`GetTime()`). -/
structure TickEnv where
  ecAdapters : List (String × Bool)
  mdAdapters : List (String × Bool)
  snapshot : Int → MarketData
  subPositions : List ((Int × Int) × (Int × Int))
  pnls : List (Int × (Int × Int))
  now : Int

/-- One adapter-map pass of `Connection::PublishMarketStatus`: for each
adapter whose `connected()` flag is missing from or differs from the seen
map, record the flag and send `["market", kind, name, flag]`. -/
def marketStatusGo (closed : Bool) (kind : String) :
    List (String × Bool) → List (String × Bool) → List (String × Bool) × List TickEvent
  | seen, [] => (seen, [])
  | seen, (name, v) :: rest =>
      if lookupStr seen name = some v then marketStatusGo closed kind seen rest
      else
        let seen2 := setStr seen name v
        let evs := gatedSend closed (J.arr [J.s "market", J.s kind, J.s name, J.b v])
        let (seen3, evs2) := marketStatusGo closed kind seen2 rest
        (seen3, evs ++ evs2)

/-- The market-data loop of the tick body: for every subscription entry,
fetch the current snapshot, diff it against the last-sent one via
`GetMarketData`, and unconditionally store the fetched snapshot as the new
last-sent (`pair.second.first = md`).  Returns the updated map and the
elements accumulated into the `"md"` frame. -/
def mdDiffGo (env : TickEnv) : Subs → Subs × List J
  | [] => ([], [])
  | (id, (last, cnt)) :: rest =>
      let md := env.snapshot id
      let e := GetMarketData md last id
      let (rest2, es) := mdDiffGo env rest
      ((id, (md, cnt)) :: rest2, e.toList ++ es)

/-- The single-position PnL loop of the tick body: for every
(sub-account, security) position whose sub-account the user owns,
`single_pnls_[key]` default-inserts the last-sent pair, and when realized or
unrealized changed the pair is updated and
`["pnl", sub-account, security, unrealized (, realized when it changed)]`
is sent. -/
def pnlSingleGo (closed : Bool) (accs : List Int) :
    List ((Int × Int) × (Int × Int)) → List ((Int × Int) × (Int × Int)) →
      List ((Int × Int) × (Int × Int)) × List TickEvent
  | pnls, [] => (pnls, [])
  | pnls, ((said, secid), (r, u)) :: rest =>
      if said ∈ accs then
        let pnl0 := (lookupKey pnls (said, secid)).getD (0, 0)
        let pnls1 :=
          if (lookupKey pnls (said, secid)).isSome then pnls
          else pnls ++ [((said, secid), (0, 0))]
        if r ≠ pnl0.1 ∨ u ≠ pnl0.2 then
          let pnls2 := setKey pnls1 (said, secid) (r, u)
          let f := J.arr ([J.s "pnl", J.i said, J.i secid, J.i u] ++
            if r ≠ pnl0.1 then [J.i r] else [])
          let evs := gatedSend closed f
          let (pnls3, evs2) := pnlSingleGo closed accs pnls2 rest
          (pnls3, evs ++ evs2)
        else pnlSingleGo closed accs pnls1 rest
      else pnlSingleGo closed accs pnls rest

/-- The aggregate PnL loop of the tick body: for every sub-account PnL the
user owns, `pnls_[id]` default-inserts the last-sent pair, and when either
component changed the pair is updated and
`["Pnl", id, now, realized, unrealized]` is sent. -/
def pnlAggGo (closed : Bool) (now : Int) (accs : List Int) :
    List (Int × (Int × Int)) → List (Int × (Int × Int)) →
      List (Int × (Int × Int)) × List TickEvent
  | pnls, [] => (pnls, [])
  | pnls, (id, (r, u)) :: rest =>
      if id ∈ accs then
        let pnl0 := (lookupKey pnls id).getD (0, 0)
        let pnls1 :=
          if (lookupKey pnls id).isSome then pnls else pnls ++ [(id, (0, 0))]
        if r ≠ pnl0.1 ∨ u ≠ pnl0.2 then
          let pnls2 := setKey pnls1 id (r, u)
          let evs := gatedSend closed (J.arr [J.s "Pnl", J.i id, J.i now, J.i r, J.i u])
          let (pnls3, evs2) := pnlAggGo closed now accs pnls2 rest
          (pnls3, evs ++ evs2)
        else pnlAggGo closed now accs pnls1 rest
      else pnlAggGo closed now accs pnls rest

/-- One firing of the periodic publisher: the timer callback of
`Connection::PublishMarketdata`.  Its first statement re-enters
`PublishMarketdata`, which checks `closed_` and — only when the session is
still open — schedules the next tick; the callback then unconditionally runs
the body: `PublishMarketStatus`, the market-data diff (sending the `"md"`
frame only when it has at least one element), and, when `sub_pnl_` is set,
the two PnL loops (`user_` is non-null whenever `sub_pnl_` is set, since only
the authenticated `pnl` verb sets it; a null user is rendered as owning no
sub-accounts).  Returns the updated state and the ordered events. -/
def tickFire (env : TickEnv) (st : ConnState) : ConnState × List TickEvent :=
  let sched : List TickEvent := if st.closed then [] else [.schedule]
  let (ecs2, ev1) := marketStatusGo st.closed "exchange" st.ecs env.ecAdapters
  let (mds2, ev2) := marketStatusGo st.closed "data" st.mds env.mdAdapters
  let (subs2, entries) := mdDiffGo env st.subs
  let ev3 := if entries.isEmpty then [] else gatedSend st.closed (J.arr (J.s "md" :: entries))
  let st1 := { st with ecs := ecs2, mds := mds2, subs := subs2 }
  if st.sub_pnl = false then (st1, sched ++ ev1 ++ ev2 ++ ev3)
  else
    let accs := match st.user with | some u => u.sub_accounts | none => []
    let (sp2, ev4) := pnlSingleGo st.closed accs st.single_pnls env.subPositions
    let (p2, ev5) := pnlAggGo st.closed env.now accs st1.pnls env.pnls
    ({ st1 with single_pnls := sp2, pnls := p2 }, sched ++ ev1 ++ ev2 ++ ev3 ++ ev4 ++ ev5)

/-! ## Claim C1 — market-data diff emission -/

/-- C1, counterexample: with the last-sent snapshot `mdZero` and a current
snapshot whose timestamp advanced to 1 while every tracked field is
unchanged (`mdChangedFields` is empty), `GetMarketData` still emits the
entry `[42, ("t" : 1)]` for the security — the claim states that a diff
sub-object containing only `t` is never emitted. -/
theorem C1_counterexample :
    GetMarketData mdOnlyT mdZero 42 = some (J.arr [J.i 42, J.obj [("t", J.i 1)]]) ∧
    mdChangedFields mdOnlyT mdZero = [] :=
  ⟨rfl, rfl⟩

/-- C1, amended: the `"md"` frame contains an entry for a subscribed security
iff the snapshot timestamp differs from the last-sent snapshot's timestamp;
when it does, the emitted sub-object is `t` followed by exactly the changed
tracked fields — in particular a sub-object containing only `t` is still
emitted (the emptiness guard after the diff can never fire because `t` is
always inserted first). -/
theorem C1_amended (md md0 : MarketData) (id : Int) :
    ((GetMarketData md md0 id).isSome = true ↔ md.tm ≠ md0.tm) ∧
    (md.tm ≠ md0.tm →
      GetMarketData md md0 id =
        some (J.arr [J.i id, J.obj (("t", J.i md.tm) :: mdChangedFields md md0)])) := by
  constructor
  · by_cases h : md.tm = md0.tm <;> simp [GetMarketData, h]
  · intro h
    simp [GetMarketData, h]

/-- C1, witness for the amended theorem at the concrete snapshots
`mdOnlyT`/`mdZero` and id 7. -/
theorem C1_amended_witness :
    (GetMarketData mdOnlyT mdZero 7).isSome = true ∧
    GetMarketData mdOnlyT mdZero 7 = some (J.arr [J.i 7, J.obj [("t", J.i 1)]]) := by
  constructor
  · exact ((C1_amended mdOnlyT mdZero 7).1).mpr (by decide)
  · have h := (C1_amended mdOnlyT mdZero 7).2 (by decide)
    rw [show mdChangedFields mdOnlyT mdZero = ([] : List (String × J)) from rfl] at h
    exact h

/-! ## Claim C3 — subscription reference counts -/

/-- Every subscription entry carries a non-negative count. -/
def CountsOk (subs : Subs) : Prop := ∀ e ∈ subs, 0 ≤ e.2.2

/-- A successful lookup returns a stored entry. -/
theorem lookupSub_mem {subs : Subs} {id : Int} {v : MarketData × Int}
    (h : lookupSub subs id = some v) : (id, v) ∈ subs := by
  induction subs with
  | nil => cases h
  | cons hd tl ih =>
      obtain ⟨k, v0⟩ := hd
      by_cases hk : k = id
      · subst hk
        simp [lookupSub] at h
        subst h
        exact List.mem_cons_self _ _
      · simp [lookupSub, hk] at h
        exact List.mem_cons_of_mem _ (ih h)

/-- Overwriting an entry with a non-negative count preserves `CountsOk`. -/
theorem countsOk_setSub {subs : Subs} (h : CountsOk subs) (id : Int)
    (md : MarketData) {cnt : Int} (hc : 0 ≤ cnt) : CountsOk (setSub subs id (md, cnt)) := by
  induction subs with
  | nil => intro e he; cases he
  | cons hd tl ih =>
      obtain ⟨k, v0⟩ := hd
      have htl : CountsOk tl := fun e he => h e (List.mem_cons_of_mem _ he)
      by_cases hk : k = id
      · intro e he
        simp only [setSub, if_pos hk] at he
        rcases List.mem_cons.1 he with rfl | he2
        · exact hc
        · exact htl e he2
      · intro e he
        simp only [setSub, if_neg hk] at he
        rcases List.mem_cons.1 he with rfl | he2
        · exact h _ (List.mem_cons_self _ _)
        · exact ih htl e he2

/-- Erasure only removes entries. -/
theorem mem_eraseSub {subs : Subs} {id : Int} {e : Int × (MarketData × Int)}
    (he : e ∈ eraseSub subs id) : e ∈ subs := by
  induction subs with
  | nil => cases he
  | cons hd tl ih =>
      obtain ⟨k, v0⟩ := hd
      by_cases hk : k = id
      · simp only [eraseSub, if_pos hk] at he
        exact List.mem_cons_of_mem _ he
      · simp only [eraseSub, if_neg hk] at he
        rcases List.mem_cons.1 he with rfl | he2
        · exact List.mem_cons_self _ _
        · exact List.mem_cons_of_mem _ (ih he2)

/-- Erasing an entry preserves `CountsOk`. -/
theorem countsOk_eraseSub {subs : Subs} (h : CountsOk subs) (id : Int) :
    CountsOk (eraseSub subs id) := fun e he => h e (mem_eraseSub he)

/-- Appending a zero-count entry preserves `CountsOk`. -/
theorem countsOk_append_zero {subs : Subs} (h : CountsOk subs) (id : Int) :
    CountsOk (subs ++ [(id, (mdZero, 0))]) := by
  intro e he
  rcases List.mem_append.1 he with he1 | he2
  · exact h e he1
  · rcases List.mem_singleton.1 he2 with rfl
    exact le_refl 0

/-- One `sub` iteration preserves `CountsOk`. -/
theorem countsOk_subOne (env : Env) {subs : Subs} (h : CountsOk subs) (id : Int) :
    CountsOk (subOne env subs id).1 := by
  unfold subOne
  rcases hl : lookupSub subs id with _ | v
  · simp only [hl, Option.getD_none, Option.isSome_none, Bool.false_eq_true, if_false]
    by_cases hs : id ∈ env.secs
    · simp only [hs, if_true]
      exact countsOk_setSub (countsOk_append_zero h id) id _ (by norm_num)
    · simp only [hs, if_false]
      exact countsOk_append_zero h id
  · simp only [hl, Option.getD_some, Option.isSome_some, if_true]
    by_cases hs : id ∈ env.secs
    · simp only [hs, if_true]
      have hv : 0 ≤ v.2 := h (id, v) (lookupSub_mem hl)
      exact countsOk_setSub h id _ (by omega)
    · simp only [hs, if_false]
      exact h

/-- The `sub` loop preserves `CountsOk`. -/
theorem countsOk_OnSubGo (env : Env) (ids : List Int) :
    ∀ subs entries, CountsOk subs → CountsOk (OnSubGo env subs entries ids).1 := by
  induction ids with
  | nil => intro subs entries h; exact h
  | cons id rest ih =>
      intro subs entries h
      simp only [OnSubGo]
      exact ih _ _ (countsOk_subOne env h id)

/-- The `unsub` loop preserves `CountsOk` (unconditionally: a kept entry was
just decremented to a positive count). -/
theorem countsOk_OnUnsubGo (ids : List Int) :
    ∀ subs, CountsOk subs → CountsOk (OnUnsubGo subs ids) := by
  induction ids with
  | nil => intro subs h; exact h
  | cons id rest ih =>
      intro subs h
      simp only [OnUnsubGo]
      rcases hl : lookupSub subs id with _ | v
      · exact h
      · obtain ⟨md, cnt⟩ := v
        by_cases hc : cnt - 1 ≤ 0
        · simp only [hc, if_true]
          exact ih _ (countsOk_eraseSub h id)
        · simp only [hc, if_false]
          exact ih _ (countsOk_setSub h id md (by omega))

/-- C3, counterexample: from a fresh session, a single `sub` naming security
id 2 — unknown to the security manager (`envNoSec` knows no security) —
creates a subscription entry with reference count 0: `subs_[id]`
default-inserts before the security lookup is checked.  This falsifies both
"ref_count ≥ 1 while the entry exists" and "`sub` on an unknown id creates
no entry". -/
theorem C3_counterexample :
    runSubs envNoSec [SubMsg.sub [2]] = [(2, (mdZero, 0))] ∧
    lookupSub (runSubs envNoSec [SubMsg.sub [2]]) 2 = some (mdZero, 0) :=
  ⟨rfl, rfl⟩

/-- C3, amended: in every state reachable by `sub`/`unsub` sequences all
entries have reference count ≥ 0 (not ≥ 1); a `sub` naming an id unknown to
the security manager emits nothing but does create a count-0 entry with a
zeroed snapshot when the id was absent. -/
theorem C3_amended (env : Env) (ms : List SubMsg) (subs : Subs) (id : Int) :
    (∀ e ∈ runSubs env ms, 0 ≤ e.2.2) ∧
    (id ∉ env.secs →
      OnSub env subs [id] =
        ((if (lookupSub subs id).isSome then subs else subs ++ [(id, (mdZero, 0))]), [])) := by
  constructor
  · have main : ∀ ms0 : List SubMsg, ∀ subs0 : Subs, CountsOk subs0 →
        CountsOk (List.foldl (stepSubs env) subs0 ms0) := by
      intro ms0
      induction ms0 with
      | nil => intro subs0 h; exact h
      | cons m rest ih =>
          intro subs0 h
          refine ih _ ?_
          rcases m with ids | ids
          · exact countsOk_OnSubGo env ids subs0 [] h
          · exact countsOk_OnUnsubGo ids subs0 h
    exact main ms [] (fun e he => by cases he)
  · intro hs
    simp [OnSub, OnSubGo, subOne, hs]

/-- C3, witness for the amended theorem: the invariant evaluated on the
reachable state of the counterexample run, and the no-emission behavior of a
`sub` on unknown id 3 from a fresh map. -/
theorem C3_amended_witness :
    (∀ e ∈ runSubs envNoSec [SubMsg.sub [2]], 0 ≤ e.2.2) ∧
    OnSub envNoSec [] [3] = ([(3, (mdZero, 0))], []) := by
  constructor
  · exact (C3_amended envNoSec [SubMsg.sub [2]] [] 3).1
  · exact (C3_amended envNoSec [] [] 3).2 (by decide)

/-! ## Claim C2 — login gate -/

/-- Re-assigning `user := none` on a state whose user is already null leaves
the state unchanged. -/
theorem user_none_update (st : ConnState) (h : st.user = none) :
    { st with user := none } = st := by
  cases st
  simp only at h
  simp [h]

/-- C2, counterexample: on an unauthenticated session whose token does not
resolve, the inbound verb `validate_user` is NOT accepted: the login gate of
`Connection::OnMessageSync` exempts only `"login"` (and the raw heartbeat,
handled before the gate), so `validate_user` elicits the
`"you must login first"` error instead of being processed. -/
theorem C2_counterexample :
    OnMessageGate [] initialConn (.parsed "validate_user" "m") "tk" =
      (initialConn, .reply [J.arr (renderError .loginFirst)]) :=
  rfl

/-- C2, amended: while `user` is null and the per-message token does not
resolve, only the heartbeat `h` and the verb `login` are accepted; every
other non-empty verb — including `validate_user` — elicits exactly one
`["error","msg","action","you must login first"]` frame and leaves the
session state unchanged (an empty verb elicits the `empty action` error
before the gate is consulted). -/
theorem C2_amended (tokens : List (String × User)) (st : ConnState)
    (a raw tok : String) :
    (st.user = none → lookupStr tokens tok = none → a ≠ "" → a ≠ "login" →
      OnMessageGate tokens st (.parsed a raw) tok =
        (st, .reply [J.arr (renderError .loginFirst)])) ∧
    OnMessageGate tokens st .heartbeat tok = (st, .reply [J.s "h"]) ∧
    (st.user = none →
      OnMessageGate tokens st (.parsed "login" raw) tok = (st, .dispatch "login")) := by
  refine ⟨?_, rfl, ?_⟩
  · intro hu htok ha hl
    have h1 : { st with user := none } = st := user_none_update st hu
    simp [OnMessageGate, ha, hl, hu, htok, h1]
  · intro hu
    simp [OnMessageGate, hu]

/-- C2, witness for the amended theorem: a `bod` request on a fresh
unauthenticated session with an empty token table is answered with the
login-first error only, and a `login` request reaches its handler. -/
theorem C2_amended_witness :
    OnMessageGate [] initialConn (.parsed "bod" "m") "tk" =
      (initialConn, .reply [J.arr (renderError .loginFirst)]) ∧
    OnMessageGate [] initialConn (.parsed "login" "m") "tk" =
      (initialConn, .dispatch "login") := by
  constructor
  · exact (C2_amended [] initialConn "bod" "m" "tk").1 rfl rfl (by decide) (by decide)
  · exact (C2_amended [] initialConn "login" "m" "tk").2.2 rfl

/-! ## Claim C4 — unsub processing -/

/-- C4, counterexample: `unsub [7, 5]` on a map holding only id 5 with count
1 leaves the map unchanged — the absent id 7 executes `return`, so the
listed, present id 5 is never decremented, contradicting "the remaining ids
in the same message are still processed". -/
theorem C4_counterexample :
    OnUnsubGo [(5, (mdZero, 1))] [7, 5] = [(5, (mdZero, 1))] ∧
    lookupSub (OnUnsubGo [(5, (mdZero, 1))] [7, 5]) 5 = some (mdZero, 1) :=
  ⟨rfl, rfl⟩

/-- C4, amended: the listed ids are processed in order; a present id has its
count decremented and is erased exactly when the decremented count is ≤ 0,
but the first absent id aborts the whole message — it and all remaining ids
are left unprocessed. -/
theorem C4_amended (subs : Subs) (i : Int) (rest : List Int) :
    (lookupSub subs i = none → OnUnsubGo subs (i :: rest) = subs) ∧
    (∀ md cnt, lookupSub subs i = some (md, cnt) →
      OnUnsubGo subs (i :: rest) =
        OnUnsubGo (if cnt - 1 ≤ 0 then eraseSub subs i else setSub subs i (md, cnt - 1))
          rest) := by
  constructor
  · intro h
    simp [OnUnsubGo, h]
  · intro md cnt h
    simp [OnUnsubGo, h]

/-- C4, witness for the amended theorem: both behaviors at concrete maps —
an absent id aborts, and a present id with count 2 is decremented to 1. -/
theorem C4_amended_witness :
    OnUnsubGo [(1, (mdZero, 1))] [2] = [(1, (mdZero, 1))] ∧
    OnUnsubGo [(1, (mdZero, 2))] [1] = OnUnsubGo (setSub [(1, (mdZero, 2))] 1 (mdZero, 1)) [] := by
  constructor
  · exact (C4_amended [(1, (mdZero, 1))] 2 []).1 rfl
  · have h := (C4_amended [(1, (mdZero, 2))] 1 []).2 mdZero 2 rfl
    simpa using h

/-! ## Claim C5 — error-reply shape -/

/-- C5, counterexample: the `error/algo/invalid params` reply emitted by the
catch block of `Connection::OnAlgo` is a 5-element array
`["error","algo","invalid params", token, humantext]`, not a 4-element one. -/
theorem C5_counterexample :
    (renderError (.algoInvalidParams "tok-1" "Empty quantity")).length = 5 ∧
    renderError (.algoInvalidParams "tok-1" "Empty quantity") =
      [J.s "error", J.s "algo", J.s "invalid params", J.s "tok-1", J.s "Empty quantity"] :=
  ⟨rfl, rfl⟩

/-- C5, amended: every user-visible error reply of the dispatcher is a
4-element `["error", context, subfield, humantext]` array, with the single
exception of `error/algo/invalid params`, which also interpolates the
offending token and is a 5-element array; each failure class (parse failure,
wrong-kind getter, unknown enum, handler-local domain error) maps totally to
such a reply frame, never to session termination. -/
theorem C5_amended (e : ErrorSite) :
    (renderError e).length =
      match e with
      | .algoInvalidParams _ _ => 5
      | _ => 4 := by
  cases e <;> rfl

/-! ## Claim C6 — offline replay -/

/-- C6, counterexample: an `offline` request carrying both sequence numbers
emits the terminators in the order `offline_algos`, `offline_orders`,
`offline` — the algo replay and its terminator come first, contradicting the
claimed order `offline_orders` then `offline_algos`. -/
theorem C6_counterexample :
    OnOffline [] [] 0 (some 0) =
      [J.arr [J.s "offline_algos", J.s "complete"],
       J.arr [J.s "offline_orders", J.s "complete"],
       J.arr [J.s "offline", J.s "complete"]] :=
  rfl

/-- C6, amended: confirmations with sequence strictly greater than
`seq-orders` are replayed as `"Order"` frames and algo events with sequence
strictly greater than `seq-algos` as `"Algo"` frames, but when `seq-algos`
is provided the reply is ordered algo replay, `["offline_algos","complete"]`,
order replay, `["offline_orders","complete"]`, `["offline","complete"]`. -/
theorem C6_amended (os as : List Nat) (so sa : Int) :
    (∀ s : Nat, J.arr [J.s "Order", J.i s] ∈ OnOffline os as so (some sa) ↔ s ∈ os ∧ so < s) ∧
    (∀ s : Nat, J.arr [J.s "Algo", J.i s] ∈ OnOffline os as so (some sa) ↔ s ∈ as ∧ sa < s) ∧
    OnOffline os as so (some sa) =
      (LoadStoreAlgos as sa ++ [J.arr [J.s "offline_algos", J.s "complete"]]) ++
        LoadStoreOrders os so ++
        [J.arr [J.s "offline_orders", J.s "complete"], J.arr [J.s "offline", J.s "complete"]] := by
  refine ⟨?_, ?_, rfl⟩
  · intro s
    simp [OnOffline, LoadStoreOrders, LoadStoreAlgos, List.mem_append, List.mem_map,
      List.mem_filter]
  · intro s
    simp [OnOffline, LoadStoreOrders, LoadStoreAlgos, List.mem_append, List.mem_map,
      List.mem_filter]

/-! ## Claim C7 — position reply -/

/-- A sample position record. -/
def pEx : Position := ⟨3, 10, 7, 5, 100, 50, 2, 4⟩

/-- An environment in which security 1 and account `"desk1"` resolve. -/
def envP : PosEnv := ⟨[1], ["desk1"], [], fun _ _ => pEx, fun _ _ => pEx⟩

/-- The inbound message `["position", 1, "desk1"]`. -/
def msgP : J := J.arr [J.s "position", J.i 1, J.s "desk1"]

/-- C7: at the failing input `["position", 1, "desk1"]` — whose security and
account both resolve — the code replies with the inbound message echoed back
(`Send(j.dump())` sends the request `j`), while the composed `"position"`
record it built into the discarded local `out` is a different frame.  The
spec records the composed object as the intended contract, so this is a slip
in the code. -/
theorem C7_code_bug :
    OnPosition envP 1 "desk1" false msgP = [msgP] ∧
    msgP ≠ composedPositionFrame (envP.posPlain "desk1" 1) := by
  refine ⟨rfl, ?_⟩
  intro h
  simp [msgP, composedPositionFrame, envP, pEx] at h

/-! ## Claim C8 — confirmation ownership gate -/

/-- C8: `Connection::Send(Confirmation::Ptr)` posts the confirmation for
encoding iff the session is open and has a user owning the order's
sub-account; in particular every delivered confirmation's sub-account lies in
the session user's sub-accounts. -/
theorem C8_confirmed (st : ConnState) (cm : Confirmation) :
    SendConfirmation st cm = true ↔
      st.closed = false ∧
        ∃ u, st.user = some u ∧ cm.order.sub_account_id ∈ u.sub_accounts := by
  unfold SendConfirmation
  cases hc : st.closed <;> cases hu : st.user <;> simp_all

/-! ## Claim C9 — periodic publisher and the closed flag -/

/-- On a closed session the connectivity fan-out emits nothing (every send is
gated on `closed`), whatever bookkeeping it performs. -/
theorem marketStatusGo_closed (kind : String) (ads : List (String × Bool)) :
    ∀ seen, (marketStatusGo true kind seen ads).2 = [] := by
  induction ads with
  | nil => intro seen; rfl
  | cons hd tl ih =>
      intro seen
      obtain ⟨n, v⟩ := hd
      by_cases h : lookupStr seen n = some v
      · simp only [marketStatusGo, if_pos h]
        exact ih seen
      · simp only [marketStatusGo, if_neg h]
        have htl := ih (setStr seen n v)
        rcases hm : marketStatusGo true kind (setStr seen n v) tl with ⟨s3, e2⟩
        rw [hm] at htl
        simp only at htl
        simp [hm, gatedSend, htl]

/-- On a closed session the single-position PnL loop emits nothing. -/
theorem pnlSingleGo_closed (accs : List Int)
    (ps : List ((Int × Int) × (Int × Int))) :
    ∀ pnls, (pnlSingleGo true accs pnls ps).2 = [] := by
  induction ps with
  | nil => intro pnls; rfl
  | cons hd tl ih =>
      intro pnls
      obtain ⟨⟨said, secid⟩, r, u⟩ := hd
      by_cases hin : said ∈ accs
      · simp only [pnlSingleGo, if_pos hin]
        by_cases hch : r ≠ ((lookupKey pnls (said, secid)).getD (0, 0)).1 ∨
            u ≠ ((lookupKey pnls (said, secid)).getD (0, 0)).2
        · rw [if_pos hch]
          set pnls1 := if (lookupKey pnls (said, secid)).isSome then pnls
            else pnls ++ [((said, secid), (0, 0))] with hp1
          have htl := ih (setKey pnls1 (said, secid) (r, u))
          rcases hm : pnlSingleGo true accs (setKey pnls1 (said, secid) (r, u)) tl with ⟨p3, e2⟩
          rw [hm] at htl
          simp only at htl
          simp [hm, gatedSend, htl]
        · rw [if_neg hch]
          exact ih _
      · simp only [pnlSingleGo, if_neg hin]
        exact ih pnls

/-- On a closed session the aggregate PnL loop emits nothing. -/
theorem pnlAggGo_closed (now : Int) (accs : List Int)
    (ps : List (Int × (Int × Int))) :
    ∀ pnls, (pnlAggGo true now accs pnls ps).2 = [] := by
  induction ps with
  | nil => intro pnls; rfl
  | cons hd tl ih =>
      intro pnls
      obtain ⟨id, r, u⟩ := hd
      by_cases hin : id ∈ accs
      · simp only [pnlAggGo, if_pos hin]
        by_cases hch : r ≠ ((lookupKey pnls id).getD (0, 0)).1 ∨
            u ≠ ((lookupKey pnls id).getD (0, 0)).2
        · rw [if_pos hch]
          set pnls1 := if (lookupKey pnls id).isSome then pnls
            else pnls ++ [(id, (0, 0))] with hp1
          have htl := ih (setKey pnls1 id (r, u))
          rcases hm : pnlAggGo true now accs (setKey pnls1 id (r, u)) tl with ⟨p3, e2⟩
          rw [hm] at htl
          simp only at htl
          simp [hm, gatedSend, htl]
        · rw [if_neg hch]
          exact ih _
      · simp only [pnlAggGo, if_neg hin]
        exact ih pnls

/-- A session that is closed at a tick firing, with one exchange adapter
whose connectivity differs from the seen map. -/
def stC9 : ConnState := { initialConn with closed := true }

/-- Tick environment with a single connected exchange adapter `"x"`. -/
def envC9 : TickEnv := ⟨[("x", true)], [], fun _ => mdZero, [], [], 0⟩

/-- C9, counterexample: when `closed` is observed at tick entry no message
goes out and no tick is rescheduled, but the tick body is NOT skipped: the
connectivity fan-out still runs and records adapter `"x"` into the seen map
(`ecs_` changes from `[]` to `[("x", true)]`).  Only the self-reschedule
sits behind the `closed` check; the rest of the callback runs
unconditionally. -/
theorem C9_counterexample :
    (tickFire envC9 stC9).2 = [] ∧
    (tickFire envC9 stC9).1.ecs = [("x", true)] ∧
    stC9.ecs = [] :=
  ⟨rfl, rfl, rfl⟩

/-- C9, amended: the next tick is scheduled before the tick's work runs (the
schedule event is the head of the tick's event list whenever the session is
open); when `closed` is observed at tick entry no outbound message is
emitted and no new tick is scheduled (the event list is empty), but the
tick's body still executes its diff bookkeeping — only the reschedule is
behind the `closed` check. -/
theorem C9_amended (env : TickEnv) (st : ConnState) :
    (st.closed = true → (tickFire env st).2 = []) ∧
    (st.closed = false → ∃ evs, (tickFire env st).2 = TickEvent.schedule :: evs) := by
  constructor
  · intro h
    unfold tickFire
    rw [h]
    rcases h1 : marketStatusGo true "exchange" st.ecs env.ecAdapters with ⟨ecs2, ev1⟩
    rcases h2 : marketStatusGo true "data" st.mds env.mdAdapters with ⟨mds2, ev2⟩
    rcases h3 : mdDiffGo env st.subs with ⟨subs2, entries⟩
    have he1 : ev1 = [] := by
      have := marketStatusGo_closed "exchange" env.ecAdapters st.ecs
      rw [h1] at this; exact this
    have he2 : ev2 = [] := by
      have := marketStatusGo_closed "data" env.mdAdapters st.mds
      rw [h2] at this; exact this
    by_cases hp : st.sub_pnl = false
    · simp only [hp, if_true]
      subst he1 he2
      simp [gatedSend]
    · simp only [hp, if_false]
      rcases h4 : pnlSingleGo true (match st.user with | some u => u.sub_accounts | none => [])
          st.single_pnls env.subPositions with ⟨sp2, ev4⟩
      rcases h5 : pnlAggGo true env.now (match st.user with | some u => u.sub_accounts | none => [])
          st.pnls env.pnls with ⟨p2, ev5⟩
      have he4 : ev4 = [] := by
        have := pnlSingleGo_closed (match st.user with | some u => u.sub_accounts | none => [])
          env.subPositions st.single_pnls
        rw [h4] at this; exact this
      have he5 : ev5 = [] := by
        have := pnlAggGo_closed env.now (match st.user with | some u => u.sub_accounts | none => [])
          env.pnls st.pnls
        rw [h5] at this; exact this
      subst he1 he2 he4 he5
      simp [gatedSend]
  · intro h
    unfold tickFire
    rw [h]
    rcases h1 : marketStatusGo false "exchange" st.ecs env.ecAdapters with ⟨ecs2, ev1⟩
    rcases h2 : marketStatusGo false "data" st.mds env.mdAdapters with ⟨mds2, ev2⟩
    rcases h3 : mdDiffGo env st.subs with ⟨subs2, entries⟩
    by_cases hp : st.sub_pnl = false
    · simp only [hp, if_true]
      exact ⟨_, rfl⟩
    · simp only [hp, if_false]
      rcases h4 : pnlSingleGo false (match st.user with | some u => u.sub_accounts | none => [])
          st.single_pnls env.subPositions with ⟨sp2, ev4⟩
      rcases h5 : pnlAggGo false env.now (match st.user with | some u => u.sub_accounts | none => [])
          st.pnls env.pnls with ⟨p2, ev5⟩
      exact ⟨_, rfl⟩

/-- C9, witness for the amended theorem: at the concrete closed session the
tick emits no events; on a fresh open session the first event is the
self-reschedule. -/
theorem C9_amended_witness :
    (tickFire envC9 stC9).2 = [] ∧
    (∃ evs, (tickFire envC9 initialConn).2 = TickEvent.schedule :: evs) := by
  constructor
  · exact (C9_amended envC9 stC9).1 rfl
  · exact (C9_amended envC9 initialConn).2 rfl

/-! ## Claim C10 — algo event ownership gate -/

/-- C10: `Connection::Send(const Algo&, ...)` posts the algo event iff the
session is open, has a user, and that user's id equals the algo's owning
user's id; otherwise the call is a silent no-op. -/
theorem C10_confirmed (st : ConnState) (algoUserId : Int) :
    SendAlgo st algoUserId = true ↔
      st.closed = false ∧ ∃ u, st.user = some u ∧ u.id = algoUserId := by
  unfold SendAlgo
  cases hc : st.closed <;> cases hu : st.user <;> simp_all

end opentrade
